import Mathlib

/-!
Shallow embedding of FLACer.py (a FLAC → MP3/M4A converter with a
streamlit front end).  Pure glue logic — tag mapping, track-number
parsing, parameter building, logging, the converter factory and the
batch driver — is translated directly from the source.  The external
collaborators (mutagen FLAC parsing, pydub decode/export, mutagen tag
saving) are modelled as an `Externals` record of abstract functions;
every theorem quantifies over them.  Byte buffers are `List Nat`;
the shared mutable `logger` list becomes explicit state passing.
-/

/-- Picture mirrors one entry of `flac_meta.pictures` (mutagen FLAC
picture): MIME type, picture-type code, description and raw bytes. -/
structure Picture where
  mime : String
  ptype : Nat
  desc : String
  pdata : List Nat
deriving DecidableEq

/-- FLACMeta mirrors the `mutagen.flac.FLAC` object as used by the code:
`items` is the tag dictionary (key to list of string values, as
`flac_meta.items()` yields) and `pictures` the embedded picture list. -/
structure FLACMeta where
  items : List (String × List String)
  pictures : List Picture
deriving DecidableEq

/-- ID3Frame mirrors the mutagen ID3 frame constructors imported by the
source (`TPE1, TALB, TIT2, TRCK, TDRC, TCON, APIC`); text frames carry
the `text` argument, `apic` carries the APIC keyword arguments. -/
inductive ID3Frame where
  | tpe1 (text : String)
  | talb (text : String)
  | tit2 (text : String)
  | trck (text : String)
  | tdrc (text : String)
  | tcon (text : String)
  | apic (mime : String) (ptype : Nat) (desc : String) (pdata : List Nat)
deriving DecidableEq

/-- MP4Cover mirrors `mutagen.mp4.MP4Cover(pic.data, imageformat=...)`. -/
structure MP4Cover where
  cdata : List Nat
  imageformat : Nat
deriving DecidableEq

/-- FORMAT_JPEG is mutagen's `MP4Cover.FORMAT_JPEG` (AtomDataType JPEG). -/
def MP4Cover.FORMAT_JPEG : Nat := 13

/-- FORMAT_PNG is mutagen's `MP4Cover.FORMAT_PNG` (AtomDataType PNG). -/
def MP4Cover.FORMAT_PNG : Nat := 14

/-- MP4Value is the value written by one `mp4_meta[tag_key] = ...`
assignment in the source: a plain string, a track-number pair list, or
a cover list. -/
inductive MP4Value where
  | text (s : String)
  | trkn (pairs : List (Int × Int))
  | covr (covers : List MP4Cover)
deriving DecidableEq

/-- TagData records the tag-write calls a converter performed on the
output buffer: the sequence of ID3 `tags.add` frames for MP3, or the
sequence of MP4 dictionary assignments for M4A. -/
inductive TagData where
  | id3 (frames : List ID3Frame)
  | mp4 (assigns : List (String × MP4Value))
deriving DecidableEq

/-- ConvOutput is the `output_buffer` a converter returns, together with
the encoder parameter list it was produced with and the tag writes
applied to it.  `bytes` is the full buffer content (what `getvalue()`
yields); `pos` is the read/write cursor at return time. -/
structure ConvOutput where
  params : List String
  tags : TagData
  bytes : List Nat
  pos : Nat
deriving DecidableEq

/-- getvalue mirrors `BytesIO.getvalue()`: the whole buffer content,
independent of the cursor. -/
def ConvOutput.getvalue (o : ConvOutput) : List Nat := o.bytes

/-- Externals bundles the external library calls the converters make:
`parseFlac` is `mutagen.flac.FLAC(file_data)` (after `seek(0)`),
`decodeFlac` is `AudioSegment.from_file(file_data, format="flac")`,
`durationStr` renders `len(audio)/1000` with two decimals for the log,
`exportAudio` is `audio.export(buffer, format=..., parameters=...)`
returning the encoded bytes, and `id3Save` / `mp4Save` are the mutagen
`save` calls: given the tag writes and the buffer content they return
the saved buffer content and the cursor position the save leaves. -/
structure Externals where
  parseFlac : List Nat → Except String FLACMeta
  decodeFlac : List Nat → Except String (List Nat)
  durationStr : List Nat → String
  exportAudio : List Nat → String → List String → Except String (List Nat)
  id3Save : List ID3Frame → List Nat → List Nat × Nat
  mp4Save : List (String × MP4Value) → List Nat → List Nat × Nat

/-- digitsVal evaluates a list of decimal digit characters. -/
def digitsVal (l : List Char) : Nat :=
  l.foldl (fun a c => a * 10 + (c.toNat - 48)) 0

/-- pyLower models Python's `str.lower()` (ASCII case mapping). -/
def pyLower (s : String) : String := ⟨s.data.map Char.toLower⟩

/-- pyUpper models Python's `str.upper()` (ASCII case mapping). -/
def pyUpper (s : String) : String := ⟨s.data.map Char.toUpper⟩

/-- splitChar is the character-list worker for `pySplit`. -/
def splitChar (sep : Char) : List Char → List (List Char)
  | [] => [[]]
  | c :: rest =>
    let r := splitChar sep rest
    if c = sep then [] :: r
    else
      match r with
      | [] => [[c]]
      | g :: gs => (c :: g) :: gs

/-- pySplit models Python's `str.split(sep)` for a one-character
separator: splitting the empty string gives one empty segment, and
adjacent separators give empty segments. -/
def pySplit (s : String) (sep : Char) : List String :=
  (splitChar sep s.data).map fun l => ⟨l⟩

/-- pyStrip models Python's `str.strip()`: whitespace removed from both
ends. -/
def pyStrip (s : String) : String :=
  ⟨((s.data.dropWhile Char.isWhitespace).reverse.dropWhile Char.isWhitespace).reverse⟩

/-- pyInt models Python's `int(s)` on strings as used for track numbers:
surrounding whitespace is stripped, an optional sign is followed by a
nonempty run of decimal digits; anything else raises `ValueError`,
modelled as `none`. -/
def pyInt (s : String) : Option Int :=
  match (pyStrip s).data with
  | [] => none
  | '+' :: ds =>
      if !ds.isEmpty && ds.all Char.isDigit then some (Int.ofNat (digitsVal ds)) else none
  | '-' :: ds =>
      if !ds.isEmpty && ds.all Char.isDigit then some (-(Int.ofNat (digitsVal ds))) else none
  | ds =>
      if ds.all Char.isDigit then some (Int.ofNat (digitsVal ds)) else none

/-- parseTrack models the `try` body of the M4A track-number branch:
`track_info = value[0].split('/'); track_num = int(track_info[0]);
total_tracks = int(track_info[1]) if len(track_info) > 1 else 0`.
`none` is the caught `(ValueError, IndexError)` case. -/
def parseTrack (v : String) : Option (Int × Int) :=
  match pySplit v '/' with
  | [] => none
  | [t] => (pyInt t).map fun n => (n, 0)
  | t1 :: t2 :: _ =>
    match pyInt t1, pyInt t2 with
    | some n, some m => some (n, m)
    | _, _ => none

/-- trackWarn is the warning line the M4A converter logs when the
track-number value fails to parse. -/
def trackWarn (v : String) : String :=
  "WARNING: Could not parse track number \x27" ++ v ++ "\x27. Skipping."

/-- mp3Params builds the MP3 ffmpeg parameter list: the base list
`['-codec:a', 'libmp3lame', '-id3v2_version', '3']` extended with
`['-q:a', '0']` under vbr, else `['-b:a', f'{bitrate}k']`. -/
def mp3Params (bitrate : Nat) (conversion_type : String) : List String :=
  if conversion_type = "vbr" then
    ["-codec:a", "libmp3lame", "-id3v2_version", "3", "-q:a", "0"]
  else
    ["-codec:a", "libmp3lame", "-id3v2_version", "3", "-b:a", toString bitrate ++ "k"]

/-- mp4Params builds the M4A ffmpeg parameter list: base `['-c:a', 'aac']`
extended with `['-q:a', '2']` under vbr, else `['-b:a', f'{bitrate}k']`. -/
def mp4Params (bitrate : Nat) (conversion_type : String) : List String :=
  if conversion_type = "vbr" then
    ["-c:a", "aac", "-q:a", "2"]
  else
    ["-c:a", "aac", "-b:a", toString bitrate ++ "k"]

/-- mp3TagMap is the MP3 converter's `tag_map` dictionary lookup
(`tag_map.get(...)`), from a lowercase source key to the ID3 frame
constructor. -/
def mp3TagMap (key : String) : Option (String → ID3Frame) :=
  if key = "artist" then some ID3Frame.tpe1
  else if key = "album" then some ID3Frame.talb
  else if key = "title" then some ID3Frame.tit2
  else if key = "tracknumber" then some ID3Frame.trck
  else if key = "date" then some ID3Frame.tdrc
  else if key = "genre" then some ID3Frame.tcon
  else none

/-- mp3TagFold is the MP3 converter's tag loop: for each source item,
look the lowercased key up in the map; on a hit add the frame built from
`value[0]` (an empty value list raises `IndexError`, modelled as the
error), on a miss continue.  `acc` is the frame sequence added so far. -/
def mp3TagFold : List (String × List String) → List ID3Frame →
    Except String (List ID3Frame)
  | [], acc => .ok acc
  | (key, value) :: rest, acc =>
    match mp3TagMap (pyLower key) with
    | none => mp3TagFold rest acc
    | some fc =>
      match value with
      | [] => .error "list index out of range"
      | v0 :: _ => mp3TagFold rest (acc ++ [fc v0])

/-- mp3PictureFrames is the MP3 picture block: if `flac_meta.pictures`
is nonempty, one APIC frame built from the first picture (MIME, type,
description and data copied verbatim); later pictures are unused. -/
def mp3PictureFrames : List Picture → List ID3Frame
  | [] => []
  | pic :: _ => [ID3Frame.apic pic.mime pic.ptype pic.desc pic.pdata]

/-- mp4TagMap is the M4A converter's `tag_map` dictionary lookup, from a
lowercase source key to the MP4 atom name. -/
def mp4TagMap (key : String) : Option String :=
  if key = "artist" then some "\xA9ART"
  else if key = "album" then some "\xA9alb"
  else if key = "title" then some "\xA9nam"
  else if key = "tracknumber" then some "trkn"
  else if key = "date" then some "\xA9day"
  else if key = "genre" then some "\xA9gen"
  else none

/-- mp4TagFold is the M4A converter's tag loop.  It returns the warning
lines the loop appends to the logger (as a delta) and either the
assignment sequence or the uncaught exception.  The `trkn` branch
mirrors the `try`: a parse failure logs a warning and skips only this
key; an empty value list raises `IndexError` (for `trkn` the handler's
f-string re-evaluates `value[0]`, so the `IndexError` still escapes). -/
def mp4TagFold : List (String × List String) → List (String × MP4Value) →
    List String × Except String (List (String × MP4Value))
  | [], acc => ([], .ok acc)
  | (key, value) :: rest, acc =>
    match mp4TagMap (pyLower key) with
    | none => mp4TagFold rest acc
    | some tk =>
      match value with
      | [] => ([], .error "list index out of range")
      | v0 :: _ =>
        if tk = "trkn" then
          match parseTrack v0 with
          | some nm => mp4TagFold rest (acc ++ [(tk, MP4Value.trkn [nm])])
          | none =>
            let r := mp4TagFold rest acc
            (trackWarn v0 :: r.1, r.2)
        else
          mp4TagFold rest (acc ++ [(tk, MP4Value.text v0)])

/-- mp4CovrAssigns is the M4A picture block: if `flac_meta.pictures` is
nonempty, one `covr` assignment from the first picture, with
FORMAT_JPEG exactly when the MIME is `image/jpeg` and FORMAT_PNG for
every other MIME value; later pictures are unused. -/
def mp4CovrAssigns : List Picture → List (String × MP4Value)
  | [] => []
  | pic :: _ =>
    [("covr", MP4Value.covr [⟨pic.pdata,
      if pic.mime = "image/jpeg" then MP4Cover.FORMAT_JPEG else MP4Cover.FORMAT_PNG⟩])]

/-- modeLine is the encoding-mode log line both converters append:
the fixed VBR line under vbr, else
`f"INFO: Applying {conversion_type.upper()} encoding (audio only)."`. -/
def modeLine (conversion_type : String) : String :=
  if conversion_type = "vbr" then "INFO: Applying VBR encoding (audio only)."
  else "INFO: Applying " ++ pyUpper conversion_type ++ " encoding (audio only)."

/-- process is `MP3_LAME.process(file_data, bitrate, conversion_type,
logger, filename)`.  The returned pair is the logger after the call and
either the returned output buffer or the exception that escaped; the
source builds `parameters` by `extend` and logs the mode line inside
the same `if`, split here into `mp3Params` and `modeLine`. -/
def MP3_LAME.process (ext : Externals) (file_data : List Nat) (bitrate : Nat)
    (conversion_type : String) (logger : List String) (filename : String) :
    List String × Except String ConvOutput :=
  let l1 := logger ++ ["INFO: Starting MP3 conversion for \x27" ++ filename ++ "\x27."]
  match ext.parseFlac file_data with
  | .error e => (l1, .error e)
  | .ok flac_meta =>
    let l2 := l1 ++ ["INFO: Successfully extracted source metadata."]
    match ext.decodeFlac file_data with
    | .error e => (l2, .error e)
    | .ok audio =>
      let l3 := l2 ++ ["INFO: Loaded audio data. Duration: " ++ ext.durationStr audio ++ "s."]
      let parameters := mp3Params bitrate conversion_type
      let l4 := l3 ++ [modeLine conversion_type]
      match ext.exportAudio audio "mp3" parameters with
      | .error e => (l4, .error e)
      | .ok exported =>
        let l5 := l4 ++ ["INFO: Audio conversion complete. Applying metadata."]
        match mp3TagFold flac_meta.items [] with
        | .error e => (l5, .error e)
        | .ok textFrames =>
          let frames := textFrames ++ mp3PictureFrames flac_meta.pictures
          let saved := ext.id3Save frames exported
          let l6 := l5 ++ ["INFO: Metadata successfully applied."]
          let l7 := l6 ++ ["SUCCESS: Finished MP3 conversion for \x27" ++ filename ++ "\x27."]
          (l7, .ok { params := parameters, tags := .id3 frames, bytes := saved.1, pos := saved.2 })

/-- process is `AAC_better.process(file_data, bitrate, conversion_type,
logger, filename)`, with the same conventions as the MP3 variant; the
tag loop's warning lines are the delta `(mp4TagFold ...).1` appended to
the logger at the point the loop runs. -/
def AAC_better.process (ext : Externals) (file_data : List Nat) (bitrate : Nat)
    (conversion_type : String) (logger : List String) (filename : String) :
    List String × Except String ConvOutput :=
  let l1 := logger ++ ["INFO: Starting M4A (AAC) conversion for \x27" ++ filename ++ "\x27."]
  match ext.parseFlac file_data with
  | .error e => (l1, .error e)
  | .ok flac_meta =>
    let l2 := l1 ++ ["INFO: Successfully extracted source metadata."]
    match ext.decodeFlac file_data with
    | .error e => (l2, .error e)
    | .ok audio =>
      let l3 := l2 ++ ["INFO: Loaded audio data. Duration: " ++ ext.durationStr audio ++ "s."]
      let parameters := mp4Params bitrate conversion_type
      let l4 := l3 ++ [modeLine conversion_type]
      match ext.exportAudio audio "mp4" parameters with
      | .error e => (l4, .error e)
      | .ok exported =>
        let l5 := l4 ++ ["INFO: Audio conversion complete. Applying metadata."]
        let folded := mp4TagFold flac_meta.items []
        let l6 := l5 ++ folded.1
        match folded.2 with
        | .error e => (l6, .error e)
        | .ok assigns0 =>
          let assigns := assigns0 ++ mp4CovrAssigns flac_meta.pictures
          let saved := ext.mp4Save assigns exported
          let l7 := l6 ++ ["INFO: Metadata successfully applied."]
          let l8 := l7 ++ ["SUCCESS: Finished M4A conversion for \x27" ++ filename ++ "\x27."]
          (l8, .ok { params := parameters, tags := .mp4 assigns, bytes := saved.1, pos := saved.2 })

/-- Converter is the runtime tag for the two `AudioConverter`
implementations the factory can return. -/
inductive Converter where
  | mp3_lame
  | aac_better
deriving DecidableEq

/-- get_converter is `Fucktory.get_converter`: `mp3` and `m4a` yield the
two converter instances, anything else raises
`ValueError("Unknown format specified")`. -/
def Fucktory.get_converter (format : String) : Except String Converter :=
  if format = "mp3" then .ok .mp3_lame
  else if format = "m4a" then .ok .aac_better
  else .error "Unknown format specified"

/-- process dispatches the abstract `AudioConverter.process` call to the
variant the factory returned. -/
def Converter.process : Converter → Externals → List Nat → Nat → String →
    List String → String → List String × Except String ConvOutput
  | .mp3_lame => MP3_LAME.process
  | .aac_better => AAC_better.process

/-- pystem models `name.rsplit('.', 1)[0]`: everything before the last
dot, or the whole name when it has no dot. -/
def pystem (name : String) : String :=
  let parts := pySplit name '.'
  if parts.length ≤ 1 then name else String.intercalate "." parts.dropLast

/-- outName is the suggested output filename
`f"{file.name.rsplit('.', 1)[0]}.{selected_format}"`. -/
def outName (name format : String) : String := pystem name ++ "." ++ format

/-- audioMime is `f"audio/{'mpeg' if selected_format == 'mp3' else 'mp4'}"`. -/
def audioMime (format : String) : String :=
  "audio/" ++ (if format = "mp3" then "mpeg" else "mp4")

/-- ZIP_DEFLATED is `zipfile.ZIP_DEFLATED`, the deflate compression
method code the batch driver passes to `ZipFile`. -/
def ZIP_DEFLATED : Nat := 8

/-- dashes is the separating marker line `"-" * 30`. -/
def dashes : String := "------------------------------"

/-- errLine is the log line the outermost handler appends:
`f"ERROR: An unexpected error occurred: {e}"`. -/
def errLine (e : String) : String := "ERROR: An unexpected error occurred: " ++ e

/-- failMsg is the single failure message surfaced via `st.error`:
`f"An error occurred during conversion: {e}"`. -/
def failMsg (e : String) : String := "An error occurred during conversion: " ++ e

/-- batchHeader is the two lines `process_files` appends to the freshly
reset log before the `try` block. -/
def batchHeader (format conversion_type : String) (n : Nat) : List String :=
  ["BATCH START: Initializing conversion for " ++ toString n ++ " file(s).",
   "BATCH INFO: Target format: " ++ pyUpper format ++ ", Type: " ++ pyUpper conversion_type ++ "."]

/-- BatchOutcome is what `process_files` hands to the presentation
layer: a bare converted file behind one download button, a ZIP archive
behind one download button, or the single `st.error` failure message. -/
inductive BatchOutcome where
  | single (fileName : String) (mime : String) (fdata : List Nat)
  | zipped (archiveName : String) (mime : String)
      (entries : List (String × List Nat)) (compression : Nat)
  | failed (message : String)
deriving DecidableEq

/-- zipLoop is the `for i, file in enumerate(files)` loop of the
multi-file branch: per file it logs the marker and progress lines, runs
the converter, and writes `(new_filename, output_buffer.getvalue())`
into the archive; the first escaping exception aborts the loop. -/
def zipLoop (ext : Externals) (c : Converter) (conversion_type format : String)
    (total : Nat) :
    Nat → List (String × List Nat) → List String → List (String × List Nat) →
    List String × Except String (List (String × List Nat))
  | _, [], logs, acc => (logs, .ok acc)
  | i, f :: rest, logs, acc =>
    match Converter.process c ext f.2 320 conversion_type
        (logs ++ [dashes,
          "INFO: Processing file " ++ toString (i + 1) ++ " of " ++ toString total ++
            ": \x27" ++ f.1 ++ "\x27"]) f.1 with
    | (logs2, .error e) => (logs2, .error e)
    | (logs2, .ok out) =>
      zipLoop ext c conversion_type format total (i + 1) rest logs2
        (acc ++ [(outName f.1 format, out.getvalue)])

/-- process_files is the batch driver: it resets the session log,
appends the two header lines, resolves the converter once, then either
converts the single file and offers it bare, or converts every file in
order into one deflate-compressed archive named `converted_audio.zip`;
any exception is caught once here, logged as one error line and
surfaced as one failure message, with no download offered. -/
def process_files (ext : Externals) (selected_format conversion_type : String)
    (files : List (String × List Nat)) : List String × BatchOutcome :=
  let logs := batchHeader selected_format conversion_type files.length
  match Fucktory.get_converter selected_format with
  | .error e => (logs ++ [errLine e], .failed (failMsg e))
  | .ok converter =>
    match files with
    | [f] =>
      match Converter.process converter ext f.2 320 conversion_type logs f.1 with
      | (logs2, .error e) => (logs2 ++ [errLine e], .failed (failMsg e))
      | (logs2, .ok out) =>
        (logs2, .single (outName f.1 selected_format) (audioMime selected_format) out.getvalue)
    | fs =>
      match zipLoop ext converter conversion_type selected_format fs.length 0 fs logs [] with
      | (logs2, .error e) => (logs2 ++ [errLine e], .failed (failMsg e))
      | (logs2, .ok entries) =>
        (logs2 ++ [dashes, "BATCH SUCCESS: All files converted and zipped successfully!"],
         .zipped "converted_audio.zip" "application/zip" entries ZIP_DEFLATED)

/-- UIResult is the outcome of pressing the convert button: either the
batch ran, or the `st.warning` for an empty upload list. -/
inductive UIResult where
  | processed (outcome : BatchOutcome)
  | warning (msg : String)
deriving DecidableEq

/-- convert_clicked is the convert-button body in
`configure_converter_ui`: `if uploaded_files: process_files(...) else:
st.warning("Can't make something out of nothing.")`.  The pair carries
the session log, which the warning branch leaves untouched. -/
def convert_clicked (ext : Externals) (format conversion_type : String)
    (files : List (String × List Nat)) (logs : List String) :
    List String × UIResult :=
  if files.isEmpty then
    (logs, .warning "Can\x27t make something out of nothing.")
  else
    let r := process_files ext format conversion_type files
    (r.1, .processed r.2)

/-- mp3Result is the logger-free characterization of the MP3 converter:
the `Except` component of its result, which never depends on the
incoming logger (the logger is only ever appended to). -/
def mp3Result (ext : Externals) (file_data : List Nat) (bitrate : Nat)
    (conversion_type : String) : Except String ConvOutput :=
  match ext.parseFlac file_data with
  | .error e => .error e
  | .ok flac_meta =>
    match ext.decodeFlac file_data with
    | .error e => .error e
    | .ok audio =>
      let parameters := mp3Params bitrate conversion_type
      match ext.exportAudio audio "mp3" parameters with
      | .error e => .error e
      | .ok exported =>
        match mp3TagFold flac_meta.items [] with
        | .error e => .error e
        | .ok textFrames =>
          let frames := textFrames ++ mp3PictureFrames flac_meta.pictures
          let saved := ext.id3Save frames exported
          .ok { params := parameters, tags := .id3 frames, bytes := saved.1, pos := saved.2 }

/-- mp4Result is the logger-free characterization of the M4A converter,
analogous to `mp3Result`. -/
def mp4Result (ext : Externals) (file_data : List Nat) (bitrate : Nat)
    (conversion_type : String) : Except String ConvOutput :=
  match ext.parseFlac file_data with
  | .error e => .error e
  | .ok flac_meta =>
    match ext.decodeFlac file_data with
    | .error e => .error e
    | .ok audio =>
      let parameters := mp4Params bitrate conversion_type
      match ext.exportAudio audio "mp4" parameters with
      | .error e => .error e
      | .ok exported =>
        match (mp4TagFold flac_meta.items []).2 with
        | .error e => .error e
        | .ok assigns0 =>
          let assigns := assigns0 ++ mp4CovrAssigns flac_meta.pictures
          let saved := ext.mp4Save assigns exported
          .ok { params := parameters, tags := .mp4 assigns, bytes := saved.1, pos := saved.2 }

/-- convResult dispatches the logger-free characterization over the
converter tag. -/
def convResult : Converter → Externals → List Nat → Nat → String →
    Except String ConvOutput
  | .mp3_lame => mp3Result
  | .aac_better => mp4Result

/-- extOkMeta is a concrete external-library instance for witnesses: the
FLAC parse returns the given metadata, decoding and export are the
identity on bytes, and each save reports the buffer unchanged with the
cursor after the buffer content. -/
def extOkMeta (meta : FLACMeta) : Externals where
  parseFlac := fun _ => .ok meta
  decodeFlac := fun b => .ok b
  durationStr := fun _ => "0.00"
  exportAudio := fun a _ _ => .ok a
  id3Save := fun _ b => (b, b.length)
  mp4Save := fun _ b => (b, b.length)

/-- extDefault is `extOkMeta` on a source with no tags and no picture. -/
def extDefault : Externals := extOkMeta ⟨[], []⟩

/-- convertAll is the per-batch conversion relation used to specify the
archive content: each file in order is converted (logger-free view) and
renamed to its output name; the first failure aborts. -/
def convertAll (ext : Externals) (c : Converter) (conversion_type format : String) :
    List (String × List Nat) → Except String (List (String × List Nat))
  | [] => .ok []
  | f :: rest =>
    match convResult c ext f.2 320 conversion_type with
    | .error e => .error e
    | .ok o =>
      match convertAll ext c conversion_type format rest with
      | .error e => .error e
      | .ok en => .ok ((outName f.1 format, o.getvalue) :: en)

theorem mp3_process_snd (ext : Externals) (fd : List Nat) (br : Nat) (ct : String)
    (lg : List String) (fn : String) :
    (MP3_LAME.process ext fd br ct lg fn).2 = mp3Result ext fd br ct := by
  unfold MP3_LAME.process mp3Result
  cases hp : ext.parseFlac fd with
  | error e => simp [hp]
  | ok meta =>
    cases hd : ext.decodeFlac fd with
    | error e => simp [hp, hd]
    | ok audio =>
      cases hx : ext.exportAudio audio "mp3" (mp3Params br ct) with
      | error e => simp [hp, hd, hx]
      | ok exported =>
        cases ht : mp3TagFold meta.items [] with
        | error e => simp [hp, hd, hx, ht]
        | ok tf => simp [hp, hd, hx, ht]

theorem mp4_process_snd (ext : Externals) (fd : List Nat) (br : Nat) (ct : String)
    (lg : List String) (fn : String) :
    (AAC_better.process ext fd br ct lg fn).2 = mp4Result ext fd br ct := by
  unfold AAC_better.process mp4Result
  cases hp : ext.parseFlac fd with
  | error e => simp [hp]
  | ok meta =>
    cases hd : ext.decodeFlac fd with
    | error e => simp [hp, hd]
    | ok audio =>
      cases hx : ext.exportAudio audio "mp4" (mp4Params br ct) with
      | error e => simp [hp, hd, hx]
      | ok exported =>
        cases ht : (mp4TagFold meta.items []).2 with
        | error e => simp [hp, hd, hx, ht]
        | ok assigns0 => simp [hp, hd, hx, ht]

theorem conv_process_snd (c : Converter) (ext : Externals) (fd : List Nat) (br : Nat)
    (ct : String) (lg : List String) (fn : String) :
    (Converter.process c ext fd br ct lg fn).2 = convResult c ext fd br ct := by
  cases c with
  | mp3_lame => exact mp3_process_snd ext fd br ct lg fn
  | aac_better => exact mp4_process_snd ext fd br ct lg fn

/-- notErr says a log line is not of the outermost handler's error-line
form, for any exception text. -/
def notErr (s : String) : Prop := ∀ e, s ≠ errLine e

theorem errLine_head (e : String) : (errLine e).data.head? = some 'E' := by
  unfold errLine
  rw [String.data_append]
  rfl

theorem notErr_of_head (s : String) (c : Char) (h : s.data.head? = some c)
    (hc : c ≠ 'E') : notErr s := by
  intro e he
  rw [he, errLine_head] at h
  exact hc (Option.some.inj h).symm

theorem head_append_str (s x : String) (c : Char) (h : s.data.head? = some c) :
    (s ++ x).data.head? = some c := by
  rw [String.data_append]
  cases hd : s.data with
  | nil => rw [hd] at h; simp at h
  | cons a l =>
    rw [hd] at h
    simp only [List.head?_cons] at h
    simpa using h

theorem linesOk_nil : ∀ l ∈ ([] : List String), notErr l := by
  intro l hl
  simp at hl

theorem linesOk_cons {a : String} {L : List String} (ha : notErr a)
    (hL : ∀ l ∈ L, notErr l) : ∀ l ∈ a :: L, notErr l := by
  intro l hl
  rcases List.mem_cons.1 hl with rfl | h
  · exact ha
  · exact hL l h

theorem mem_append_lines {lg L : List String} (hL : ∀ l ∈ L, notErr l) :
    ∀ l ∈ lg ++ L, l ∈ lg ∨ notErr l := by
  intro l hl
  rcases List.mem_append.1 hl with h | h
  · exact Or.inl h
  · exact Or.inr (hL l h)

theorem linesOk_append {L1 L2 : List String} (h1 : ∀ l ∈ L1, notErr l)
    (h2 : ∀ l ∈ L2, notErr l) : ∀ l ∈ L1 ++ L2, notErr l := by
  intro l hl
  rcases List.mem_append.1 hl with h | h
  · exact h1 l h
  · exact h2 l h

theorem mp4TagFold_warnOk (items : List (String × List String)) :
    ∀ acc, ∀ l ∈ (mp4TagFold items acc).1, notErr l := by
  induction items with
  | nil =>
    intro acc l hl
    simp [mp4TagFold] at hl
  | cons kv rest ih =>
    intro acc l hl
    obtain ⟨key, value⟩ := kv
    unfold mp4TagFold at hl
    cases hm : mp4TagMap (pyLower key) with
    | none =>
      simp only [hm] at hl
      exact ih acc l hl
    | some tk =>
      simp only [hm] at hl
      cases value with
      | nil => simp at hl
      | cons v0 vs =>
        by_cases htk : tk = "trkn"
        · simp only [if_pos htk] at hl
          cases hpt : parseTrack v0 with
          | none =>
            simp only [hpt] at hl
            rcases List.mem_cons.1 hl with rfl | h
            · exact notErr_of_head _ 'W'
                (head_append_str _ _ _ (head_append_str _ _ _ rfl)) (by decide)
            · exact ih acc l h
          | some nm =>
            simp only [hpt] at hl
            exact ih _ l hl
        · simp only [if_neg htk] at hl
          exact ih _ l hl

theorem mp3_process_mem (ext : Externals) (fd : List Nat) (br : Nat) (ct : String)
    (lg : List String) (fn : String) :
    ∀ l ∈ (MP3_LAME.process ext fd br ct lg fn).1, l ∈ lg ∨ notErr l := by
  have hStart : notErr ("INFO: Starting MP3 conversion for \x27" ++ fn ++ "\x27.") :=
    notErr_of_head _ 'I' (head_append_str _ _ _ (head_append_str _ _ _ rfl)) (by decide)
  have hMeta : notErr "INFO: Successfully extracted source metadata." :=
    notErr_of_head _ 'I' rfl (by decide)
  have hConv : notErr "INFO: Audio conversion complete. Applying metadata." :=
    notErr_of_head _ 'I' rfl (by decide)
  have hApplied : notErr "INFO: Metadata successfully applied." :=
    notErr_of_head _ 'I' rfl (by decide)
  have hSucc : notErr ("SUCCESS: Finished MP3 conversion for \x27" ++ fn ++ "\x27.") :=
    notErr_of_head _ 'S' (head_append_str _ _ _ (head_append_str _ _ _ rfl)) (by decide)
  have hMode : notErr (modeLine ct) := by
    unfold modeLine
    split
    · exact notErr_of_head _ 'I' rfl (by decide)
    · exact notErr_of_head _ 'I' (head_append_str _ _ _ (head_append_str _ _ _ rfl)) (by decide)
  unfold MP3_LAME.process
  cases hp : ext.parseFlac fd with
  | error e =>
    simp only [hp]
    exact mem_append_lines (linesOk_cons hStart linesOk_nil)
  | ok meta =>
    have hDur : ∀ audio : List Nat,
        notErr ("INFO: Loaded audio data. Duration: " ++ ext.durationStr audio ++ "s.") :=
      fun audio =>
        notErr_of_head _ 'I' (head_append_str _ _ _ (head_append_str _ _ _ rfl)) (by decide)
    cases hd : ext.decodeFlac fd with
    | error e =>
      simp only [hp, hd]
      intro l hl
      simp only [List.append_assoc, List.singleton_append] at hl
      exact mem_append_lines (linesOk_cons hStart (linesOk_cons hMeta linesOk_nil)) l hl
    | ok audio =>
      cases hx : ext.exportAudio audio "mp3" (mp3Params br ct) with
      | error e =>
        simp only [hp, hd, hx]
        intro l hl
        simp only [List.append_assoc, List.singleton_append] at hl
        refine mem_append_lines ?_ l hl
        exact linesOk_cons hStart (linesOk_cons hMeta (linesOk_cons (hDur audio)
          (linesOk_cons hMode linesOk_nil)))
      | ok exported =>
        cases ht : mp3TagFold meta.items [] with
        | error e =>
          simp only [hp, hd, hx, ht]
          intro l hl
          simp only [List.append_assoc, List.singleton_append] at hl
          refine mem_append_lines ?_ l hl
          exact linesOk_cons hStart (linesOk_cons hMeta (linesOk_cons (hDur audio)
            (linesOk_cons hMode (linesOk_cons hConv linesOk_nil))))
        | ok tf =>
          simp only [hp, hd, hx, ht]
          intro l hl
          simp only [List.append_assoc, List.singleton_append] at hl
          refine mem_append_lines ?_ l hl
          exact linesOk_cons hStart (linesOk_cons hMeta (linesOk_cons (hDur audio)
            (linesOk_cons hMode (linesOk_cons hConv
              (linesOk_cons hApplied (linesOk_cons hSucc linesOk_nil))))))


theorem mp4_process_mem (ext : Externals) (fd : List Nat) (br : Nat) (ct : String)
    (lg : List String) (fn : String) :
    ∀ l ∈ (AAC_better.process ext fd br ct lg fn).1, l ∈ lg ∨ notErr l := by
  have hStart : notErr ("INFO: Starting M4A (AAC) conversion for \x27" ++ fn ++ "\x27.") :=
    notErr_of_head _ 'I' (head_append_str _ _ _ (head_append_str _ _ _ rfl)) (by decide)
  have hMeta : notErr "INFO: Successfully extracted source metadata." :=
    notErr_of_head _ 'I' rfl (by decide)
  have hConv : notErr "INFO: Audio conversion complete. Applying metadata." :=
    notErr_of_head _ 'I' rfl (by decide)
  have hApplied : notErr "INFO: Metadata successfully applied." :=
    notErr_of_head _ 'I' rfl (by decide)
  have hSucc : notErr ("SUCCESS: Finished M4A conversion for \x27" ++ fn ++ "\x27.") :=
    notErr_of_head _ 'S' (head_append_str _ _ _ (head_append_str _ _ _ rfl)) (by decide)
  have hMode : notErr (modeLine ct) := by
    unfold modeLine
    split
    · exact notErr_of_head _ 'I' rfl (by decide)
    · exact notErr_of_head _ 'I' (head_append_str _ _ _ (head_append_str _ _ _ rfl)) (by decide)
  unfold AAC_better.process
  cases hp : ext.parseFlac fd with
  | error e =>
    simp only [hp]
    exact mem_append_lines (linesOk_cons hStart linesOk_nil)
  | ok meta =>
    have hDur : ∀ audio : List Nat,
        notErr ("INFO: Loaded audio data. Duration: " ++ ext.durationStr audio ++ "s.") :=
      fun audio =>
        notErr_of_head _ 'I' (head_append_str _ _ _ (head_append_str _ _ _ rfl)) (by decide)
    cases hd : ext.decodeFlac fd with
    | error e =>
      simp only [hp, hd]
      intro l hl
      simp only [List.append_assoc, List.singleton_append] at hl
      exact mem_append_lines (linesOk_cons hStart (linesOk_cons hMeta linesOk_nil)) l hl
    | ok audio =>
      cases hx : ext.exportAudio audio "mp4" (mp4Params br ct) with
      | error e =>
        simp only [hp, hd, hx]
        intro l hl
        simp only [List.append_assoc, List.singleton_append] at hl
        refine mem_append_lines ?_ l hl
        exact linesOk_cons hStart (linesOk_cons hMeta (linesOk_cons (hDur audio)
          (linesOk_cons hMode linesOk_nil)))
      | ok exported =>
        cases ht : (mp4TagFold meta.items []).2 with
        | error e =>
          simp only [hp, hd, hx, ht]
          intro l hl
          simp only [List.append_assoc, List.singleton_append] at hl
          refine mem_append_lines ?_ l hl
          exact linesOk_cons hStart (linesOk_cons hMeta (linesOk_cons (hDur audio)
            (linesOk_cons hMode (linesOk_cons hConv (mp4TagFold_warnOk meta.items [])))))
        | ok assigns0 =>
          simp only [hp, hd, hx, ht]
          intro l hl
          simp only [List.append_assoc, List.singleton_append] at hl
          refine mem_append_lines ?_ l hl
          exact linesOk_cons hStart (linesOk_cons hMeta (linesOk_cons (hDur audio)
            (linesOk_cons hMode (linesOk_cons hConv
              (linesOk_append (mp4TagFold_warnOk meta.items [])
                (linesOk_cons hApplied (linesOk_cons hSucc linesOk_nil)))))))

theorem conv_process_mem (c : Converter) (ext : Externals) (fd : List Nat) (br : Nat)
    (ct : String) (lg : List String) (fn : String) :
    ∀ l ∈ (Converter.process c ext fd br ct lg fn).1, l ∈ lg ∨ notErr l := by
  cases c with
  | mp3_lame => exact mp3_process_mem ext fd br ct lg fn
  | aac_better => exact mp4_process_mem ext fd br ct lg fn

theorem zipLoop_mem (ext : Externals) (c : Converter) (ct fmt : String) (total : Nat) :
    ∀ (files : List (String × List Nat)) (i : Nat) (logs : List String)
      (acc : List (String × List Nat)),
      ∀ l ∈ (zipLoop ext c ct fmt total i files logs acc).1, l ∈ logs ∨ notErr l := by
  intro files
  induction files with
  | nil =>
    intro i logs acc l hl
    exact Or.inl hl
  | cons f rest ih =>
    intro i logs acc l hl
    have hDash : notErr dashes := notErr_of_head _ '-' rfl (by decide)
    have hProc : notErr ("INFO: Processing file " ++ toString (i + 1) ++ " of " ++
        toString total ++ ": \x27" ++ f.1 ++ "\x27") :=
      notErr_of_head _ 'I'
        (head_append_str _ _ _ (head_append_str _ _ _ (head_append_str _ _ _
          (head_append_str _ _ _ (head_append_str _ _ _ rfl))))) (by decide)
    have hsplit : ∀ m, m ∈ logs ++ [dashes,
        "INFO: Processing file " ++ toString (i + 1) ++ " of " ++ toString total ++
          ": \x27" ++ f.1 ++ "\x27"] → m ∈ logs ∨ notErr m :=
      mem_append_lines (linesOk_cons hDash (linesOk_cons hProc linesOk_nil))
    unfold zipLoop at hl
    cases hcp : Converter.process c ext f.2 320 ct (logs ++ [dashes,
        "INFO: Processing file " ++ toString (i + 1) ++ " of " ++ toString total ++
          ": \x27" ++ f.1 ++ "\x27"]) f.1 with
    | mk logs2 r =>
      have hmem2 : ∀ m ∈ logs2, m ∈ logs ∨ notErr m := by
        intro m hm
        have := conv_process_mem c ext f.2 320 ct (logs ++ [dashes,
          "INFO: Processing file " ++ toString (i + 1) ++ " of " ++ toString total ++
            ": \x27" ++ f.1 ++ "\x27"]) f.1 m (by rw [hcp]; exact hm)
        rcases this with h | h
        · exact hsplit m h
        · exact Or.inr h
      rw [hcp] at hl
      cases r with
      | error e =>
        exact hmem2 l hl
      | ok out =>
        rcases ih (i + 1) logs2 (acc ++ [(outName f.1 fmt, out.getvalue)]) l hl with h | h
        · exact hmem2 l h
        · exact Or.inr h

theorem zipLoop_ok_spec (ext : Externals) (c : Converter) (ct fmt : String) (total : Nat) :
    ∀ (files : List (String × List Nat)) (i : Nat) (logs : List String)
      (acc : List (String × List Nat)) (logs2 : List String)
      (en : List (String × List Nat)),
      zipLoop ext c ct fmt total i files logs acc = (logs2, .ok en) →
      ∃ rest, en = acc ++ rest ∧ convertAll ext c ct fmt files = .ok rest := by
  intro files
  induction files with
  | nil =>
    intro i logs acc logs2 en h
    unfold zipLoop at h
    refine ⟨[], ?_, rfl⟩
    have h2 := congrArg Prod.snd h
    simp only at h2
    simpa using (Except.ok.inj h2).symm
  | cons f rest ih =>
    intro i logs acc logs2 en h
    unfold zipLoop at h
    cases hcp : Converter.process c ext f.2 320 ct (logs ++ [dashes,
        "INFO: Processing file " ++ toString (i + 1) ++ " of " ++ toString total ++
          ": \x27" ++ f.1 ++ "\x27"]) f.1 with
    | mk logsA r =>
      rw [hcp] at h
      cases r with
      | error e =>
        exact absurd (congrArg Prod.snd h) (by simp)
      | ok out =>
        obtain ⟨restE, hen, hca⟩ :=
          ih (i + 1) logsA (acc ++ [(outName f.1 fmt, out.getvalue)]) logs2 en h
        have hcr : convResult c ext f.2 320 ct = .ok out := by
          rw [← conv_process_snd c ext f.2 320 ct (logs ++ [dashes,
            "INFO: Processing file " ++ toString (i + 1) ++ " of " ++ toString total ++
              ": \x27" ++ f.1 ++ "\x27"]) f.1, hcp]
        refine ⟨(outName f.1 fmt, out.getvalue) :: restE, ?_, ?_⟩
        · rw [hen, List.append_assoc]
          rfl
        · unfold convertAll
          rw [hcr, hca]

theorem convertAll_names (ext : Externals) (c : Converter) (ct fmt : String) :
    ∀ (files : List (String × List Nat)) (en : List (String × List Nat)),
      convertAll ext c ct fmt files = .ok en →
      en.map Prod.fst = files.map (fun f => outName f.1 fmt) := by
  intro files
  induction files with
  | nil =>
    intro en h
    unfold convertAll at h
    simp [← Except.ok.inj h]
  | cons f rest ih =>
    intro en h
    unfold convertAll at h
    cases hcr : convResult c ext f.2 320 ct with
    | error e => rw [hcr] at h; exact absurd h (by simp)
    | ok o =>
      rw [hcr] at h
      cases hca : convertAll ext c ct fmt rest with
      | error e => rw [hca] at h; exact absurd h (by simp)
      | ok en2 =>
        rw [hca] at h
        rw [← Except.ok.inj h]
        simp [ih en2 hca]

/-- C2: with bitrate_mode "vbr" both converters ignore the numeric
bitrate argument — for any two bitrates the encoder parameters and the
whole process result (log and output) are identical; with "cbr" or
"abr" the parameter list carries the requested bitrate verbatim as
`-b:a <bitrate>k`. -/
theorem c2_vbr_ignores_bitrate :
    (∀ (ext : Externals) (fd : List Nat) (lg : List String) (fn : String) (b1 b2 : Nat),
      MP3_LAME.process ext fd b1 "vbr" lg fn = MP3_LAME.process ext fd b2 "vbr" lg fn ∧
      AAC_better.process ext fd b1 "vbr" lg fn = AAC_better.process ext fd b2 "vbr" lg fn ∧
      mp3Params b1 "vbr" = mp3Params b2 "vbr" ∧
      mp4Params b1 "vbr" = mp4Params b2 "vbr") ∧
    (∀ (b : Nat) (ct : String), ct = "cbr" ∨ ct = "abr" →
      mp3Params b ct =
        ["-codec:a", "libmp3lame", "-id3v2_version", "3", "-b:a", toString b ++ "k"] ∧
      mp4Params b ct = ["-c:a", "aac", "-b:a", toString b ++ "k"]) := by
  constructor
  · intro ext fd lg fn b1 b2
    exact ⟨rfl, rfl, rfl, rfl⟩
  · rintro b ct (rfl | rfl) <;> exact ⟨rfl, rfl⟩

/-- Witness for C2 at bitrate 320 and mode "cbr". -/
theorem c2_witness :
    mp3Params 320 "cbr" =
      ["-codec:a", "libmp3lame", "-id3v2_version", "3", "-b:a", "320k"] ∧
    mp4Params 320 "cbr" = ["-c:a", "aac", "-b:a", "320k"] :=
  c2_vbr_ignores_bitrate.2 320 "cbr" (Or.inl rfl)

/-- C9: every bitrate_mode other than the exact string "vbr" takes the
constant-bitrate branch: the parameters equal the "cbr" parameters and
carry `-b:a <bitrate>k`, and the whole process outcome (output or
exception — everything except the mode log line) equals the "cbr"
outcome; no rejection of the unrecognized mode occurs. -/
theorem c9_non_vbr_treated_as_cbr :
    ∀ (ct : String), ct ≠ "vbr" →
      ∀ (b : Nat) (ext : Externals) (fd : List Nat) (lg : List String) (fn : String),
        mp3Params b ct =
          ["-codec:a", "libmp3lame", "-id3v2_version", "3", "-b:a", toString b ++ "k"] ∧
        mp4Params b ct = ["-c:a", "aac", "-b:a", toString b ++ "k"] ∧
        mp3Params b ct = mp3Params b "cbr" ∧
        mp4Params b ct = mp4Params b "cbr" ∧
        (MP3_LAME.process ext fd b ct lg fn).2 = (MP3_LAME.process ext fd b "cbr" lg fn).2 ∧
        (AAC_better.process ext fd b ct lg fn).2 = (AAC_better.process ext fd b "cbr" lg fn).2 := by
  intro ct hct b ext fd lg fn
  have h3 : mp3Params b ct =
      ["-codec:a", "libmp3lame", "-id3v2_version", "3", "-b:a", toString b ++ "k"] := by
    unfold mp3Params
    rw [if_neg hct]
  have h4 : mp4Params b ct = ["-c:a", "aac", "-b:a", toString b ++ "k"] := by
    unfold mp4Params
    rw [if_neg hct]
  have h3c : mp3Params b ct = mp3Params b "cbr" := by
    rw [h3]
    rfl
  have h4c : mp4Params b ct = mp4Params b "cbr" := by
    rw [h4]
    rfl
  refine ⟨h3, h4, h3c, h4c, ?_, ?_⟩
  · rw [mp3_process_snd, mp3_process_snd]
    unfold mp3Result
    rw [h3c]
  · rw [mp4_process_snd, mp4_process_snd]
    unfold mp4Result
    rw [h4c]

/-- Witness for C9 at the unrecognized mode "foo". -/
theorem c9_witness :
    mp3Params 320 "foo" =
      ["-codec:a", "libmp3lame", "-id3v2_version", "3", "-b:a", "320k"] ∧
    mp4Params 320 "foo" = ["-c:a", "aac", "-b:a", "320k"] ∧
    mp3Params 320 "foo" = mp3Params 320 "cbr" ∧
    mp4Params 320 "foo" = mp4Params 320 "cbr" ∧
    (MP3_LAME.process extDefault [0] 320 "foo" [] "a.flac").2 =
      (MP3_LAME.process extDefault [0] 320 "cbr" [] "a.flac").2 ∧
    (AAC_better.process extDefault [0] 320 "foo" [] "a.flac").2 =
      (AAC_better.process extDefault [0] 320 "cbr" [] "a.flac").2 :=
  c9_non_vbr_treated_as_cbr "foo" (by decide) 320 extDefault [0] [] "a.flac"

/-- C7: the convert button rejects an empty upload list before anything
runs — the result is only the warning, the session log is untouched,
and the outcome does not depend on the converter machinery at all (no
`get_converter` and no `process` call can influence it). -/
theorem c7_empty_upload_rejected :
    ∀ (ext : Externals) (format ct : String) (logs : List String),
      convert_clicked ext format ct [] logs =
        (logs, UIResult.warning "Can\x27t make something out of nothing.") ∧
      ∀ ext2 : Externals,
        convert_clicked ext format ct [] logs = convert_clicked ext2 format ct [] logs := by
  intro ext format ct logs
  exact ⟨rfl, fun ext2 => rfl⟩

/-- Counterexample to C4 as stated: for the unsupported format "ogg"
the conversion does fail with the selector's error and produces no
output, but the log does not consist of the rejection alone — the two
batch-header lines are appended before the rejection line. -/
theorem c4_counterexample :
    (process_files extDefault "ogg" "cbr" [("a.flac", [0])]).1 =
      ["BATCH START: Initializing conversion for 1 file(s).",
       "BATCH INFO: Target format: OGG, Type: CBR.",
       "ERROR: An unexpected error occurred: Unknown format specified"] ∧
    (process_files extDefault "ogg" "cbr" [("a.flac", [0])]).1 ≠
      ["ERROR: An unexpected error occurred: Unknown format specified"] ∧
    (process_files extDefault "ogg" "cbr" [("a.flac", [0])]).2 =
      BatchOutcome.failed "An error occurred during conversion: Unknown format specified" := by
  refine ⟨rfl, ?_, rfl⟩
  decide

/-- C4 amended: for every format outside the closed set, `process_files`
fails with the Format Strategy Selector's error before any converter is
invoked, produces no output, and appends exactly the two batch-header
lines followed by the single rejection line — no conversion entries. -/
theorem c4_unknown_format_rejected :
    ∀ (ext : Externals) (format ct : String) (files : List (String × List Nat)),
      format ≠ "mp3" → format ≠ "m4a" →
      process_files ext format ct files =
        (batchHeader format ct files.length ++ [errLine "Unknown format specified"],
         .failed (failMsg "Unknown format specified")) := by
  intro ext format ct files h1 h2
  unfold process_files Fucktory.get_converter
  rw [if_neg h1, if_neg h2]

/-- Witness for C4 at the format "ogg". -/
theorem c4_witness :
    process_files extDefault "ogg" "vbr" [("b.flac", [1])] =
      (batchHeader "ogg" "vbr" 1 ++ [errLine "Unknown format specified"],
       .failed (failMsg "Unknown format specified")) :=
  c4_unknown_format_rejected extDefault "ogg" "vbr" [("b.flac", [1])]
    (by decide) (by decide)

/-- Counterexample to C1 as stated: the MP3 variant does not parse the
track-number value at all.  For the non-integer value "abc" it writes
the raw string into the TRCK frame and logs no warning — the claimed
skip-with-warning does not happen in the MP3 converter. -/
theorem c1_counterexample :
    MP3_LAME.process (extOkMeta ⟨[("tracknumber", ["abc"])], []⟩) [0] 320 "cbr" [] "a.flac" =
      (["INFO: Starting MP3 conversion for \x27a.flac\x27.",
        "INFO: Successfully extracted source metadata.",
        "INFO: Loaded audio data. Duration: 0.00s.",
        "INFO: Applying CBR encoding (audio only).",
        "INFO: Audio conversion complete. Applying metadata.",
        "INFO: Metadata successfully applied.",
        "SUCCESS: Finished MP3 conversion for \x27a.flac\x27."],
       .ok { params := ["-codec:a", "libmp3lame", "-id3v2_version", "3", "-b:a", "320k"],
             tags := .id3 [ID3Frame.trck "abc"], bytes := [0], pos := 1 }) ∧
    trackWarn "abc" ∉
      (MP3_LAME.process (extOkMeta ⟨[("tracknumber", ["abc"])], []⟩) [0] 320 "cbr" [] "a.flac").1 := by
  refine ⟨rfl, ?_⟩
  decide

/-- C1 amended: only the M4A variant parses the track number, by
splitting on `/`: the first segment is the required integer index, the
second (when present) the total count defaulting to 0, and segments
beyond the second are ignored; a failed parse appends a warning and
skips only this key while the loop continues.  The MP3 variant writes
the raw first value into the TRCK frame with no parsing and no
warning. -/
theorem c1_track_parsing :
    ∀ (v : String) (vs : List String) (rest : List (String × List String))
      (acc4 : List (String × MP4Value)) (acc3 : List ID3Frame),
      (mp4TagFold (("tracknumber", v :: vs) :: rest) acc4 =
        match parseTrack v with
        | some nm => mp4TagFold rest (acc4 ++ [("trkn", MP4Value.trkn [nm])])
        | none => (trackWarn v :: (mp4TagFold rest acc4).1, (mp4TagFold rest acc4).2)) ∧
      (parseTrack v =
        match pySplit v '/' with
        | [] => none
        | [t] => (pyInt t).map fun n => (n, 0)
        | t1 :: t2 :: _ =>
          match pyInt t1, pyInt t2 with
          | some n, some m => some (n, m)
          | _, _ => none) ∧
      (mp3TagFold (("tracknumber", v :: vs) :: rest) acc3 =
        mp3TagFold rest (acc3 ++ [ID3Frame.trck v])) ∧
      parseTrack "5/12" = some (5, 12) ∧
      parseTrack "7" = some (7, 0) ∧
      parseTrack "abc" = none := by
  intro v vs rest acc4 acc3
  refine ⟨?_, rfl, rfl, rfl, rfl, rfl⟩
  show (match mp4TagMap (pyLower "tracknumber") with
    | none => mp4TagFold rest acc4
    | some tk =>
      if tk = "trkn" then
        match parseTrack v with
        | some nm => mp4TagFold rest (acc4 ++ [(tk, MP4Value.trkn [nm])])
        | none => (trackWarn v :: (mp4TagFold rest acc4).1, (mp4TagFold rest acc4).2)
      else mp4TagFold rest (acc4 ++ [(tk, MP4Value.text v)])) = _
  cases hpt : parseTrack v with
  | some nm => simp [hpt, show mp4TagMap (pyLower "tracknumber") = some "trkn" from rfl]
  | none => simp [hpt, show mp4TagMap (pyLower "tracknumber") = some "trkn" from rfl]

/-- Counterexample to C6 as stated: the MP3 variant selects no JPEG/PNG
image-format indicator.  For a first picture with MIME "image/gif" the
MP3 converter embeds an APIC frame carrying "image/gif" verbatim — not
the PNG default the claim requires for a non-JPEG MIME. -/
theorem c6_counterexample :
    (MP3_LAME.process (extOkMeta ⟨[], [⟨"image/gif", 3, "d", [9]⟩]⟩)
        [0] 320 "cbr" [] "a.flac").2 =
      .ok { params := ["-codec:a", "libmp3lame", "-id3v2_version", "3", "-b:a", "320k"],
            tags := .id3 [ID3Frame.apic "image/gif" 3 "d" [9]], bytes := [0], pos := 1 } ∧
    ("image/gif" : String) ≠ "image/jpeg" ∧ ("image/gif" : String) ≠ "image/png" := by
  refine ⟨rfl, ?_, ?_⟩ <;> decide

/-- C6 amended: both converters embed only the first embedded picture
and drop the rest.  The M4A variant chooses FORMAT_JPEG exactly when
the picture's MIME is "image/jpeg" and FORMAT_PNG for every other MIME;
the MP3 variant copies the picture's MIME, type, description and data
verbatim into the APIC frame, with no JPEG/PNG indicator selection. -/
theorem c6_first_picture_and_indicator :
    ∀ (p : Picture) (ps : List Picture),
      mp4CovrAssigns (p :: ps) =
        [("covr", MP4Value.covr [⟨p.pdata,
          if p.mime = "image/jpeg" then MP4Cover.FORMAT_JPEG else MP4Cover.FORMAT_PNG⟩])] ∧
      mp3PictureFrames (p :: ps) = [ID3Frame.apic p.mime p.ptype p.desc p.pdata] ∧
      ∀ (ext : Externals) (fd : List Nat) (br : Nat) (ct : String) (lg : List String)
        (fn : String) (items : List (String × List String)) (out : ConvOutput),
        ext.parseFlac fd = .ok ⟨items, p :: ps⟩ →
        ((AAC_better.process ext fd br ct lg fn).2 = .ok out →
          ∃ base, out.tags = .mp4 (base ++ mp4CovrAssigns (p :: ps))) ∧
        ((MP3_LAME.process ext fd br ct lg fn).2 = .ok out →
          ∃ base, out.tags = .id3 (base ++ mp3PictureFrames (p :: ps))) := by
  intro p ps
  refine ⟨rfl, rfl, ?_⟩
  intro ext fd br ct lg fn items out hparse
  constructor
  · intro hok
    rw [mp4_process_snd] at hok
    unfold mp4Result at hok
    simp only [hparse] at hok
    cases hd : ext.decodeFlac fd with
    | error e => simp [hd] at hok
    | ok audio =>
      simp only [hd] at hok
      cases hx : ext.exportAudio audio "mp4" (mp4Params br ct) with
      | error e => simp [hx] at hok
      | ok exported =>
        simp only [hx] at hok
        cases ht : (mp4TagFold items []).2 with
        | error e => simp [ht] at hok
        | ok assigns0 =>
          simp only [ht, Except.ok.injEq] at hok
          refine ⟨assigns0, ?_⟩
          rw [← hok]
  · intro hok
    rw [mp3_process_snd] at hok
    unfold mp3Result at hok
    simp only [hparse] at hok
    cases hd : ext.decodeFlac fd with
    | error e => simp [hd] at hok
    | ok audio =>
      simp only [hd] at hok
      cases hx : ext.exportAudio audio "mp3" (mp3Params br ct) with
      | error e => simp [hx] at hok
      | ok exported =>
        simp only [hx] at hok
        cases ht : mp3TagFold items [] with
        | error e => simp [ht] at hok
        | ok textFrames =>
          simp only [ht, Except.ok.injEq] at hok
          refine ⟨textFrames, ?_⟩
          rw [← hok]

/-- Witness for C6: a JPEG picture through the M4A converter gets the
FORMAT_JPEG indicator, concretely. -/
theorem c6_witness :
    ∃ base, (ConvOutput.mk ["-c:a", "aac", "-q:a", "2"]
        (.mp4 [("covr", MP4Value.covr [⟨[7], 13⟩])]) [0] 1).tags =
      .mp4 (base ++ mp4CovrAssigns [⟨"image/jpeg", 3, "d", [7]⟩]) :=
  ((c6_first_picture_and_indicator ⟨"image/jpeg", 3, "d", [7]⟩ []).2.2
    (extOkMeta ⟨[], [⟨"image/jpeg", 3, "d", [7]⟩]⟩) [0] 320 "vbr" [] "a.flac" []
    (ConvOutput.mk ["-c:a", "aac", "-q:a", "2"]
      (.mp4 [("covr", MP4Value.covr [⟨[7], 13⟩])]) [0] 1) rfl).1 rfl

/-- ext8 is `extDefault` with an ID3 save that leaves the cursor at
position 5, the way a tag save that writes 5 bytes from the start
would. -/
def ext8 : Externals := { extDefault with id3Save := fun _ b => (b, 5) }

/-- Counterexample to C8 as stated: a successful MP3 conversion returns
the buffer at whatever position the tag save left (here 5), because
neither converter rewinds the output buffer before returning — the
read cursor is not at offset zero. -/
theorem c8_counterexample :
    (MP3_LAME.process ext8 [0] 320 "cbr" [] "a.flac").2 =
      .ok { params := ["-codec:a", "libmp3lame", "-id3v2_version", "3", "-b:a", "320k"],
            tags := .id3 [], bytes := [0], pos := 5 } ∧
    (5 : Nat) ≠ 0 := by
  refine ⟨rfl, ?_⟩
  decide

/-- C8 amended: on success each converter appends its success entry as
the last log line and returns the buffer without any rewind — the
returned position is exactly the position the external tag save
reports, not necessarily zero. -/
theorem c8_success_log_no_rewind :
    ∀ (ext : Externals) (p : Nat) (fd : List Nat) (br : Nat) (ct : String)
      (lg : List String) (fn : String) (log : List String) (out : ConvOutput),
      (∀ f b, (ext.id3Save f b).2 = p) →
      (∀ a b, (ext.mp4Save a b).2 = p) →
      (MP3_LAME.process ext fd br ct lg fn = (log, .ok out) →
        out.pos = p ∧
        ∃ L, log = L ++ ["SUCCESS: Finished MP3 conversion for \x27" ++ fn ++ "\x27."]) ∧
      (AAC_better.process ext fd br ct lg fn = (log, .ok out) →
        out.pos = p ∧
        ∃ L, log = L ++ ["SUCCESS: Finished M4A conversion for \x27" ++ fn ++ "\x27."]) := by
  intro ext p fd br ct lg fn log out hs3 hs4
  constructor
  · intro h
    unfold MP3_LAME.process at h
    cases hp : ext.parseFlac fd with
    | error e => simp only [hp] at h; exact absurd (congrArg Prod.snd h) (by simp)
    | ok meta =>
      simp only [hp] at h
      cases hd : ext.decodeFlac fd with
      | error e => simp only [hd] at h; exact absurd (congrArg Prod.snd h) (by simp)
      | ok audio =>
        simp only [hd] at h
        cases hx : ext.exportAudio audio "mp3" (mp3Params br ct) with
        | error e => simp only [hx] at h; exact absurd (congrArg Prod.snd h) (by simp)
        | ok exported =>
          simp only [hx] at h
          cases ht : mp3TagFold meta.items [] with
          | error e => simp only [ht] at h; exact absurd (congrArg Prod.snd h) (by simp)
          | ok tf =>
            simp only [ht] at h
            have h1 := congrArg Prod.fst h
            have h2 := congrArg Prod.snd h
            simp only at h1 h2
            simp only [Except.ok.injEq] at h2
            refine ⟨?_, ⟨_, h1.symm⟩⟩
            rw [← h2]
            exact hs3 _ _
  · intro h
    unfold AAC_better.process at h
    cases hp : ext.parseFlac fd with
    | error e => simp only [hp] at h; exact absurd (congrArg Prod.snd h) (by simp)
    | ok meta =>
      simp only [hp] at h
      cases hd : ext.decodeFlac fd with
      | error e => simp only [hd] at h; exact absurd (congrArg Prod.snd h) (by simp)
      | ok audio =>
        simp only [hd] at h
        cases hx : ext.exportAudio audio "mp4" (mp4Params br ct) with
        | error e => simp only [hx] at h; exact absurd (congrArg Prod.snd h) (by simp)
        | ok exported =>
          simp only [hx] at h
          cases ht : (mp4TagFold meta.items []).2 with
          | error e => simp only [ht] at h; exact absurd (congrArg Prod.snd h) (by simp)
          | ok assigns0 =>
            simp only [ht] at h
            have h1 := congrArg Prod.fst h
            have h2 := congrArg Prod.snd h
            simp only at h1 h2
            simp only [Except.ok.injEq] at h2
            refine ⟨?_, ⟨_, h1.symm⟩⟩
            rw [← h2]
            exact hs4 _ _

/-- extPos7 is `extDefault` with both tag saves reporting a final
cursor position of 7. -/
def extPos7 : Externals :=
  { extDefault with id3Save := fun _ b => (b, 7), mp4Save := fun _ b => (b, 7) }

/-- Witness for C8 at a save that leaves the cursor at position 7. -/
theorem c8_witness :
    (ConvOutput.mk ["-codec:a", "libmp3lame", "-id3v2_version", "3", "-b:a", "320k"]
        (.id3 []) [0] 7).pos = 7 ∧
    ∃ L, (["INFO: Starting MP3 conversion for \x27a.flac\x27.",
           "INFO: Successfully extracted source metadata.",
           "INFO: Loaded audio data. Duration: 0.00s.",
           "INFO: Applying CBR encoding (audio only).",
           "INFO: Audio conversion complete. Applying metadata.",
           "INFO: Metadata successfully applied.",
           "SUCCESS: Finished MP3 conversion for \x27a.flac\x27."] : List String) =
      L ++ ["SUCCESS: Finished MP3 conversion for \x27" ++ "a.flac" ++ "\x27."] :=
  (c8_success_log_no_rewind extPos7 7 [0] 320 "cbr" [] "a.flac"
    ["INFO: Starting MP3 conversion for \x27a.flac\x27.",
     "INFO: Successfully extracted source metadata.",
     "INFO: Loaded audio data. Duration: 0.00s.",
     "INFO: Applying CBR encoding (audio only).",
     "INFO: Audio conversion complete. Applying metadata.",
     "INFO: Metadata successfully applied.",
     "SUCCESS: Finished MP3 conversion for \x27a.flac\x27."]
    (ConvOutput.mk ["-codec:a", "libmp3lame", "-id3v2_version", "3", "-b:a", "320k"]
      (.id3 []) [0] 7)
    (fun _ _ => rfl) (fun _ _ => rfl)).1 rfl

/-- C10: both converters look every source key up after lowercasing it;
a key whose lowercasing lies in the six-key set is written (regardless
of original casing — two keys with equal lowercasings behave
identically), and every other key is skipped silently (same log, no
write). -/
theorem c10_case_insensitive_tag_keys :
    ∀ (key key2 : String) (v : String) (vs : List String)
      (rest : List (String × List String)) (acc3 : List ID3Frame)
      (acc4 : List (String × MP4Value)),
      ((mp3TagMap (pyLower key)).isSome ↔
        pyLower key ∈ ["artist", "album", "title", "tracknumber", "date", "genre"]) ∧
      ((mp4TagMap (pyLower key)).isSome ↔
        pyLower key ∈ ["artist", "album", "title", "tracknumber", "date", "genre"]) ∧
      (pyLower key = pyLower key2 →
        mp3TagFold ((key, v :: vs) :: rest) acc3 = mp3TagFold ((key2, v :: vs) :: rest) acc3 ∧
        mp4TagFold ((key, v :: vs) :: rest) acc4 = mp4TagFold ((key2, v :: vs) :: rest) acc4) ∧
      (mp3TagMap (pyLower key) = none →
        mp3TagFold ((key, v :: vs) :: rest) acc3 = mp3TagFold rest acc3 ∧
        mp4TagFold ((key, v :: vs) :: rest) acc4 = mp4TagFold rest acc4) ∧
      (∀ fc, mp3TagMap (pyLower key) = some fc →
        mp3TagFold ((key, v :: vs) :: rest) acc3 = mp3TagFold rest (acc3 ++ [fc v])) := by
  have hA : ∀ k : String, (mp3TagMap k).isSome ↔
      k ∈ ["artist", "album", "title", "tracknumber", "date", "genre"] := by
    intro k
    unfold mp3TagMap
    split_ifs with h1 h2 h3 h4 h5 h6
    · subst h1; decide
    · subst h2; decide
    · subst h3; decide
    · subst h4; decide
    · subst h5; decide
    · subst h6; decide
    · simp [List.mem_cons, h1, h2, h3, h4, h5, h6]
  have hA4 : ∀ k : String, (mp4TagMap k).isSome ↔
      k ∈ ["artist", "album", "title", "tracknumber", "date", "genre"] := by
    intro k
    unfold mp4TagMap
    split_ifs with h1 h2 h3 h4 h5 h6
    · subst h1; decide
    · subst h2; decide
    · subst h3; decide
    · subst h4; decide
    · subst h5; decide
    · subst h6; decide
    · simp [List.mem_cons, h1, h2, h3, h4, h5, h6]
  intro key key2 v vs rest acc3 acc4
  refine ⟨hA (pyLower key), hA4 (pyLower key), ?_, ?_, ?_⟩
  · intro h
    constructor
    · unfold mp3TagFold
      rw [h]
    · unfold mp4TagFold
      rw [h]
  · intro h
    have hmem : pyLower key ∉ ["artist", "album", "title", "tracknumber", "date", "genre"] := by
      intro hm
      have := (hA (pyLower key)).2 hm
      rw [h] at this
      simp at this
    have h4 : mp4TagMap (pyLower key) = none := by
      cases hq : mp4TagMap (pyLower key) with
      | none => rfl
      | some tk =>
        exact absurd ((hA4 (pyLower key)).1 (by rw [hq]; rfl)) hmem
    constructor
    · rw [mp3TagFold, h]
    · rw [mp4TagFold, h4]
  · intro fc hfc
    rw [mp3TagFold, hfc]

/-- Witness for C10: "ArTiSt" is written as the artist frame, matching
"ARTIST"; "GrOoVe" is skipped with no log line. -/
theorem c10_witness :
    mp3TagFold (("ArTiSt", ["X"]) :: []) [] = mp3TagFold [] ([] ++ [ID3Frame.tpe1 "X"]) ∧
    mp3TagFold (("ArTiSt", ["X"]) :: []) [] = mp3TagFold (("ARTIST", ["X"]) :: []) [] ∧
    mp4TagFold (("GrOoVe", ["Y"]) :: []) [] = mp4TagFold [] [] :=
  ⟨(c10_case_insensitive_tag_keys "ArTiSt" "ARTIST" "X" [] [] [] []).2.2.2.2
      ID3Frame.tpe1 rfl,
   ((c10_case_insensitive_tag_keys "ArTiSt" "ARTIST" "X" [] [] [] []).2.2.1 rfl).1,
   ((c10_case_insensitive_tag_keys "GrOoVe" "GrOoVe" "Y" [] [] [] []).2.2.2.1 rfl).2⟩

/-- C3: a one-file batch returns the bare converted output under
`<stem>.<format>` with the matching audio MIME and never an archive;
a batch that yields an archive yields exactly one ZIP named
`converted_audio.zip` with deflate compression whose entries are the
inputs converted in order, one entry per input, each named
`<stem>.<format>`. -/
theorem c3_single_bare_multi_zip :
    ∀ (ext : Externals) (fmt ct : String),
      (∀ (name : String) (bytes : List Nat) (c : Converter) (l2 : List String)
         (out : ConvOutput),
        Fucktory.get_converter fmt = .ok c →
        Converter.process c ext bytes 320 ct (batchHeader fmt ct 1) name = (l2, .ok out) →
        process_files ext fmt ct [(name, bytes)] =
          (l2, .single (outName name fmt) (audioMime fmt) out.getvalue)) ∧
      (∀ (name : String) (bytes : List Nat) (log : List String) (o : BatchOutcome),
        process_files ext fmt ct [(name, bytes)] = (log, o) →
        ∀ nm mi en cp, o ≠ .zipped nm mi en cp) ∧
      (∀ (files : List (String × List Nat)) (log : List String) (nm mi : String)
         (en : List (String × List Nat)) (cp : Nat),
        process_files ext fmt ct files = (log, .zipped nm mi en cp) →
        nm = "converted_audio.zip" ∧ mi = "application/zip" ∧ cp = ZIP_DEFLATED ∧
        en.map Prod.fst = files.map (fun f => outName f.1 fmt) ∧
        en.length = files.length ∧
        ∃ c, Fucktory.get_converter fmt = .ok c ∧
          convertAll ext c ct fmt files = .ok en) := by
  intro ext fmt ct
  refine ⟨?_, ?_, ?_⟩
  · intro name bytes c l2 out hgc hproc
    unfold process_files
    simp only [hgc, List.length_singleton]
    rw [hproc]
  · intro name bytes log o h nm mi en cp hoz
    rw [hoz] at h
    unfold process_files at h
    cases hgc : Fucktory.get_converter fmt with
    | error e =>
      simp only [hgc] at h
      exact absurd (congrArg Prod.snd h) (by simp)
    | ok c =>
      simp only [hgc, List.length_singleton] at h
      cases hcp : Converter.process c ext bytes 320 ct (batchHeader fmt ct 1) name with
      | mk l2 r =>
        rw [hcp] at h
        cases r with
        | error e => exact absurd (congrArg Prod.snd h) (by simp)
        | ok out => exact absurd (congrArg Prod.snd h) (by simp)
  · intro files log nm mi en cp h
    unfold process_files at h
    cases hgc : Fucktory.get_converter fmt with
    | error e =>
      simp only [hgc] at h
      exact absurd (congrArg Prod.snd h) (by simp)
    | ok c =>
      simp only [hgc] at h
      cases files with
      | nil =>
        simp only [zipLoop] at h
        have h2 := congrArg Prod.snd h
        simp only [BatchOutcome.zipped.injEq] at h2
        obtain ⟨hnm, hmi, hen, hcp2⟩ := h2
        subst hen
        exact ⟨hnm.symm, hmi.symm, hcp2.symm, rfl, rfl, c, rfl, rfl⟩
      | cons f rest =>
        cases rest with
        | nil =>
          simp only [List.length_singleton] at h
          cases hcp : Converter.process c ext f.2 320 ct (batchHeader fmt ct 1) f.1 with
          | mk l2 r =>
            rw [hcp] at h
            cases r with
            | error e => exact absurd (congrArg Prod.snd h) (by simp)
            | ok out => exact absurd (congrArg Prod.snd h) (by simp)
        | cons f2 rest2 =>
          simp only [List.length_cons] at h
          cases hz : zipLoop ext c ct fmt (rest2.length + 1 + 1) 0 (f :: f2 :: rest2)
              (batchHeader fmt ct (rest2.length + 1 + 1)) [] with
          | mk logsZ rz =>
            rw [hz] at h
            cases rz with
            | error e => exact absurd (congrArg Prod.snd h) (by simp)
            | ok entries =>
              have h2 := congrArg Prod.snd h
              simp only [BatchOutcome.zipped.injEq] at h2
              obtain ⟨hnm, hmi, hen, hcp2⟩ := h2
              subst hen
              obtain ⟨restE, hre, hca⟩ :=
                zipLoop_ok_spec ext c ct fmt (rest2.length + 1 + 1)
                  (f :: f2 :: rest2) 0 (batchHeader fmt ct (rest2.length + 1 + 1))
                  [] logsZ entries hz
              simp only [List.nil_append] at hre
              have hcaen : convertAll ext c ct fmt (f :: f2 :: rest2) = .ok entries := by
                rw [hca, hre]
              have hnames := convertAll_names ext c ct fmt (f :: f2 :: rest2) entries hcaen
              refine ⟨hnm.symm, hmi.symm, hcp2.symm, hnames, ?_, c, rfl, hcaen⟩
              have := congrArg List.length hnames
              simpa using this

/-- Witness for C3: a one-file batch gives the bare `a.mp3` output; a
two-file batch's archive entries are the two inputs renamed in order,
as `convertAll` of the batch. -/
theorem c3_witness :
    process_files extDefault "mp3" "cbr" [("a.flac", [0])] =
      ((Converter.process .mp3_lame extDefault [0] 320 "cbr"
          (batchHeader "mp3" "cbr" 1) "a.flac").1,
       .single (outName "a.flac" "mp3") (audioMime "mp3")
         (ConvOutput.getvalue ⟨mp3Params 320 "cbr", .id3 [], [0], 1⟩)) ∧
    ([("x.m4a", [1]), ("y.z.m4a", [2])].map Prod.fst =
      [("x.flac", [1]), ("y.z.flac", [2])].map (fun f => outName f.1 "m4a")) ∧
    (∃ c, Fucktory.get_converter "m4a" = .ok c ∧
      convertAll extDefault c "vbr" "m4a" [("x.flac", [1]), ("y.z.flac", [2])] =
        .ok [("x.m4a", [1]), ("y.z.m4a", [2])]) := by
  refine ⟨?_, ?_, ?_⟩
  · exact (c3_single_bare_multi_zip extDefault "mp3" "cbr").1 "a.flac" [0]
      .mp3_lame _ _ rfl rfl
  · exact ((c3_single_bare_multi_zip extDefault "m4a" "vbr").2.2
      [("x.flac", [1]), ("y.z.flac", [2])]
      (process_files extDefault "m4a" "vbr" [("x.flac", [1]), ("y.z.flac", [2])]).1
      "converted_audio.zip" "application/zip" [("x.m4a", [1]), ("y.z.m4a", [2])]
      8 rfl).2.2.2.1
  · exact ((c3_single_bare_multi_zip extDefault "m4a" "vbr").2.2
      [("x.flac", [1]), ("y.z.flac", [2])]
      (process_files extDefault "m4a" "vbr" [("x.flac", [1]), ("y.z.flac", [2])]).1
      "converted_audio.zip" "application/zip" [("x.m4a", [1]), ("y.z.m4a", [2])]
      8 rfl).2.2.2.2.2

theorem batchHeader_notErr (fmt ct : String) (n : Nat) :
    ∀ l ∈ batchHeader fmt ct n, notErr l := by
  have h1 : notErr ("BATCH START: Initializing conversion for " ++ toString n ++
      " file(s).") :=
    notErr_of_head _ 'B' (head_append_str _ _ _ (head_append_str _ _ _ rfl)) (by decide)
  have h2 : notErr ("BATCH INFO: Target format: " ++ pyUpper fmt ++ ", Type: " ++
      pyUpper ct ++ ".") :=
    notErr_of_head _ 'B'
      (head_append_str _ _ _ (head_append_str _ _ _ (head_append_str _ _ _
        (head_append_str _ _ _ rfl)))) (by decide)
  exact linesOk_cons h1 (linesOk_cons h2 linesOk_nil)

/-- C5: any failure during a batch is caught exactly once at the
outermost level of `process_files`: the outcome is the single failure
message, the log ends in exactly one error line (no other log line has
the error-line form), and nothing is returned — in particular no
partial archive exists, since an archive outcome always holds exactly
one entry per input file. -/
theorem c5_first_error_discards_batch :
    ∀ (ext : Externals) (fmt ct : String) (files : List (String × List Nat))
      (log : List String) (out : BatchOutcome),
      process_files ext fmt ct files = (log, out) →
      (∀ m, out = .failed m →
        ∃ e L, m = failMsg e ∧ log = L ++ [errLine e] ∧ ∀ l ∈ L, notErr l) ∧
      (∀ nm mi en cp, out = .zipped nm mi en cp → en.length = files.length) := by
  intro ext fmt ct files log out h
  unfold process_files at h
  cases hgc : Fucktory.get_converter fmt with
  | error e =>
    simp only [hgc] at h
    have h1 := congrArg Prod.fst h
    have h2 := congrArg Prod.snd h
    simp only at h1 h2
    constructor
    · intro m hm
      rw [← h2] at hm
      simp only [BatchOutcome.failed.injEq] at hm
      exact ⟨e, batchHeader fmt ct files.length, hm.symm, h1.symm,
        batchHeader_notErr fmt ct files.length⟩
    · intro nm mi en cp hz
      rw [← h2] at hz
      exact absurd hz (by simp)
  | ok c =>
    simp only [hgc] at h
    cases files with
    | nil =>
      simp only [zipLoop] at h
      have h2 := congrArg Prod.snd h
      simp only at h2
      constructor
      · intro m hm
        rw [← h2] at hm
        exact absurd hm (by simp)
      · intro nm mi en cp hz
        rw [← h2] at hz
        simp only [BatchOutcome.zipped.injEq] at hz
        rw [← hz.2.2.1]
    | cons f rest =>
      cases rest with
      | nil =>
        simp only [List.length_singleton] at h
        cases hcp : Converter.process c ext f.2 320 ct (batchHeader fmt ct 1) f.1 with
        | mk l2 r =>
          rw [hcp] at h
          have h1 := congrArg Prod.fst h
          have h2 := congrArg Prod.snd h
          simp only at h1 h2
          cases r with
          | error e =>
            constructor
            · intro m hm
              rw [← h2] at hm
              simp only [BatchOutcome.failed.injEq] at hm
              refine ⟨e, l2, hm.symm, h1.symm, ?_⟩
              intro l hl
              have hl2 : l ∈ (Converter.process c ext f.2 320 ct (batchHeader fmt ct 1) f.1).1 := by
                rw [hcp]
                exact hl
              rcases conv_process_mem c ext f.2 320 ct (batchHeader fmt ct 1) f.1 l hl2 with
                hb | hn
              · exact batchHeader_notErr fmt ct 1 l hb
              · exact hn
            · intro nm mi en cp hz
              rw [← h2] at hz
              exact absurd hz (by simp)
          | ok o =>
            constructor
            · intro m hm
              rw [← h2] at hm
              exact absurd hm (by simp)
            · intro nm mi en cp hz
              rw [← h2] at hz
              exact absurd hz (by simp)
      | cons f2 rest2 =>
        simp only [List.length_cons] at h
        cases hz : zipLoop ext c ct fmt (rest2.length + 1 + 1) 0 (f :: f2 :: rest2)
            (batchHeader fmt ct (rest2.length + 1 + 1)) [] with
        | mk logsZ rz =>
          rw [hz] at h
          have h1 := congrArg Prod.fst h
          have h2 := congrArg Prod.snd h
          simp only at h1 h2
          cases rz with
          | error e =>
            constructor
            · intro m hm
              rw [← h2] at hm
              simp only [BatchOutcome.failed.injEq] at hm
              refine ⟨e, logsZ, hm.symm, h1.symm, ?_⟩
              intro l hl
              have hl2 : l ∈ (zipLoop ext c ct fmt (rest2.length + 1 + 1) 0
                  (f :: f2 :: rest2) (batchHeader fmt ct (rest2.length + 1 + 1)) []).1 := by
                rw [hz]
                exact hl
              rcases zipLoop_mem ext c ct fmt (rest2.length + 1 + 1) (f :: f2 :: rest2)
                  0 (batchHeader fmt ct (rest2.length + 1 + 1)) [] l hl2 with hb | hn
              · exact batchHeader_notErr fmt ct (rest2.length + 1 + 1) l hb
              · exact hn
            · intro nm mi en cp hzz
              rw [← h2] at hzz
              exact absurd hzz (by simp)
          | ok entries =>
            constructor
            · intro m hm
              rw [← h2] at hm
              exact absurd hm (by simp)
            · intro nm mi en cp hzz
              rw [← h2] at hzz
              simp only [BatchOutcome.zipped.injEq] at hzz
              obtain ⟨-, -, hen, -⟩ := hzz
              subst hen
              obtain ⟨restE, hre, hca⟩ :=
                zipLoop_ok_spec ext c ct fmt (rest2.length + 1 + 1)
                  (f :: f2 :: rest2) 0 (batchHeader fmt ct (rest2.length + 1 + 1))
                  [] logsZ entries hz
              simp only [List.nil_append] at hre
              have hcaen : convertAll ext c ct fmt (f :: f2 :: rest2) = .ok entries := by
                rw [hca, hre]
              have hnames := convertAll_names ext c ct fmt (f :: f2 :: rest2) entries hcaen
              have := congrArg List.length hnames
              simpa using this

/-- extFail is `extDefault` with an audio export that always raises. -/
def extFail : Externals :=
  { extDefault with exportAudio := fun _ _ _ => .error "boom" }

/-- Witness for C5: a two-file batch whose export raises "boom" ends as
one failure message with the log closed by the single matching error
line, and a successful two-file batch archives exactly two entries. -/
theorem c5_witness :
    (∃ e L, failMsg "boom" = failMsg e ∧
      (process_files extFail "m4a" "vbr" [("x.flac", [1]), ("y.flac", [2])]).1 =
        L ++ [errLine e] ∧ ∀ l ∈ L, notErr l) ∧
    ([("x.m4a", [1]), ("y.m4a", [2])] : List (String × List Nat)).length =
      ([("x.flac", [1]), ("y.flac", [2])] : List (String × List Nat)).length := by
  constructor
  · exact (c5_first_error_discards_batch extFail "m4a" "vbr"
      [("x.flac", [1]), ("y.flac", [2])]
      (process_files extFail "m4a" "vbr" [("x.flac", [1]), ("y.flac", [2])]).1
      (.failed (failMsg "boom")) rfl).1 (failMsg "boom") rfl
  · exact (c5_first_error_discards_batch extDefault "m4a" "vbr"
      [("x.flac", [1]), ("y.flac", [2])]
      (process_files extDefault "m4a" "vbr" [("x.flac", [1]), ("y.flac", [2])]).1
      (.zipped "converted_audio.zip" "application/zip"
        [("x.m4a", [1]), ("y.m4a", [2])] 8) rfl).2
      "converted_audio.zip" "application/zip" [("x.m4a", [1]), ("y.m4a", [2])] 8 rfl
